import Mathlib

/-!
# Verification of the Ultra-2 schedule reconciliation engine

Shallow embedding of the identity-reconciliation logic of
`ultra2_validation_dash.py` (pandas/streamlit dashboard), together with
proofs about the properties its specification states.

Modelling conventions, used throughout:

* A spreadsheet cell is `Option String`: `none` models a pandas `NaN`
  (missing value); `pd.notna` is `Option.isSome`.
* Python `str.strip()`, `str.upper()`, `str.split()`, `str.replace(',','')`
  are given as executable functions over `List Char`.
* Python dictionaries keyed by strings are total functions
  `String → Option β`, with pointwise update.
* Decimal amounts are modelled by `ℚ` (exact arithmetic: the spec states
  the salary/tier formulas as exact decimal arithmetic, rounded only at
  display time; the program's binary floats approximate these values).
* A raised, propagating Python exception is an `Except.error` carrying the
  exception message.
-/

namespace Ultra2

/-! ## Python string primitives -/

/-- Python whitespace test used by `str.strip()` / `str.split()`. -/
def isPySpace (c : Char) : Bool := c.isWhitespace

/-- `str.strip()`: drop leading and trailing whitespace. -/
def pyStrip (s : String) : String :=
  String.mk (((s.toList.dropWhile isPySpace).reverse.dropWhile isPySpace).reverse)

/-- `str.upper()` (ASCII model). -/
def pyUpper (s : String) : String := String.mk (s.toList.map Char.toUpper)

/-- `str.replace(',', '')`: remove every comma. -/
def stripCommas (s : String) : String := String.mk (s.toList.filter (· ≠ ','))

/-- Helper for `pySplit`: walk the characters, accumulating the current
token (in reverse); whitespace ends a token, empty tokens are dropped. -/
def splitWsAux : List Char → List Char → List String
  | [], [] => []
  | [], acc => [String.mk acc.reverse]
  | c :: cs, acc =>
    if isPySpace c then
      match acc with
      | [] => splitWsAux cs []
      | _ => String.mk acc.reverse :: splitWsAux cs []
    else splitWsAux cs (c :: acc)

/-- `str.split()` with no argument: split on runs of whitespace, dropping
empty tokens. -/
def pySplit (s : String) : List String := splitWsAux s.toList []

/-- Lexicographic (code-point) comparison of character lists, the order
Python's `sorted` uses on strings.  Structurally recursive so that the
kernel can evaluate it on literals. -/
def leChars : List Char → List Char → Bool
  | [], _ => true
  | _ :: _, [] => false
  | a :: as, b :: bs => if a < b then true else if b < a then false else leChars as bs

/-- Python's `s <= t` on strings (lexicographic by code point). -/
def strLe (s t : String) : Prop := leChars s.toList t.toList = true

instance : DecidableRel strLe := fun s t =>
  inferInstanceAs (Decidable (leChars s.toList t.toList = true))

instance : IsTotal String strLe :=
  ⟨fun s t => by
    have h : ∀ a b : List Char, leChars a b = true ∨ leChars b a = true := by
      intro a
      induction a with
      | nil => intro b; left; rfl
      | cons x xs ih =>
        intro b
        cases b with
        | nil => right; rfl
        | cons y ys =>
          rcases lt_trichotomy x y with hxy | hxy | hxy
          · left; simp [leChars, hxy]
          · subst hxy
            rcases ih ys with h' | h'
            · left; simp [leChars, h']
            · right; simp [leChars, h']
          · right; simp [leChars, hxy]
    exact h s.toList t.toList⟩

instance : IsTrans String strLe :=
  ⟨fun s t u => by
    have h : ∀ a b c : List Char,
        leChars a b = true → leChars b c = true → leChars a c = true := by
      intro a
      induction a with
      | nil => intro b c _ _; rfl
      | cons x xs ih =>
        intro b c hab hbc
        cases b with
        | nil => simp [leChars] at hab
        | cons y ys =>
          cases c with
          | nil => simp [leChars] at hbc
          | cons z zs =>
            simp only [leChars] at hab hbc ⊢
            rcases lt_trichotomy x y with hxy | hxy | hxy
            · rcases lt_trichotomy y z with hyz | hyz | hyz
              · simp [lt_trans hxy hyz]
              · subst hyz; simp [hxy]
              · simp [hyz, asymm hyz] at hbc
            · subst hxy
              rcases lt_trichotomy x z with hyz | hyz | hyz
              · simp [hyz]
              · subst hyz
                simp only [lt_irrefl, if_false] at hab hbc ⊢
                exact ih ys zs hab hbc
              · simp [hyz, asymm hyz] at hbc
            · simp [hxy, asymm hxy] at hab
    exact h s.toList t.toList u.toList⟩

instance : IsAntisymm String strLe :=
  ⟨fun s t h₁ h₂ => by
    have h : ∀ a b : List Char, leChars a b = true → leChars b a = true → a = b := by
      intro a
      induction a with
      | nil =>
        intro b _ hba
        cases b with
        | nil => rfl
        | cons y ys => simp [leChars] at hba
      | cons x xs ih =>
        intro b hab hba
        cases b with
        | nil => simp [leChars] at hab
        | cons y ys =>
          simp only [leChars] at hab hba
          rcases lt_trichotomy x y with hxy | hxy | hxy
          · simp [hxy, asymm hxy] at hba
          · subst hxy
            simp only [lt_irrefl, if_false] at hab hba
            exact congrArg (x :: ·) (ih ys hab hba)
          · simp [hxy, asymm hxy] at hab
    exact String.toList_inj.mp (h s.toList t.toList h₁ h₂)⟩

/-- Python `sorted` on a list of strings (lexicographic by code point;
duplicates are equal, so stability is irrelevant to the result). -/
def pySorted (l : List String) : List String := List.insertionSort strLe l

/-- `' '.join(tokens)`. -/
def joinSpace (l : List String) : String := String.intercalate " " l

/-! ## Duplicate detector name keys

`standardize_name` (source lines 1121-1123):
`return ' '.join(sorted(str(name).upper().split()))`.

`Dashboard.multiple_ssnit` (source line 327) computes its `SortedFullName`
key as `' '.join(sorted(x.split()))` on the joined full name, without the
upper-casing step. -/

/-- `standardize_name` (source lines 1121-1123). -/
def standardize_name (name : String) : String :=
  joinSpace (pySorted (pySplit (pyUpper name)))

/-- The `SortedFullName` key of `Dashboard.multiple_ssnit`
(source line 327): `' '.join(sorted(x.split()))`. -/
def sortedFullNameKey (x : String) : String :=
  joinSpace (pySorted (pySplit x))

/-! ## Data model: cells and source rows -/

/-- A spreadsheet cell: `none` models a pandas `NaN` / missing value. -/
abbrev Cell := Option String

/-- `pd.notna`. -/
def notnaCell : Cell → Bool
  | none => false
  | some _ => true

/-- Python `str(x)` on a cell value (`str(nan)` is `"nan"`; a plain string
prints as itself). -/
def cellStr : Cell → String
  | none => "nan"
  | some s => s

/-- Python truthiness of a cell (`if value:` / `if not entry[f]:`):
`None` and the empty string are falsy. -/
def truthyCell : Cell → Bool
  | none => false
  | some s => s ≠ ""

/-- A row of the generated VLOOKUP file (primary source): columns
`Accountno, Surname, First_Name, Other_Names, Ssnit` (plus `Accountno2`,
unused by the mapping builders). -/
structure VRow where
  Ssnit : Cell
  Accountno : Cell
  Surname : Cell
  First_Name : Cell
  Other_Names : Cell
deriving DecidableEq

/-- A row of the uploaded master ("almighty") report (fallback source):
columns `Client Account Number, Surname, First Name, Other Names, Ssnit`. -/
structure MRow where
  Ssnit : Cell
  ClientAccountNumber : Cell
  Surname : Cell
  FirstName : Cell
  OtherNames : Cell
deriving DecidableEq

/-! ## Mapping builder of the Validation screen
(`Dashboard.validation`, source lines 736-766).

The primary loop (lines 737-744) stores, for each VLOOKUP row, a record
keyed by `str(row['Ssnit']).strip()` — with NO skip for identifiers that
normalize to empty.  The fallback loop (lines 747-766) inserts missing
identifiers from the master report and fills only currently-empty fields
of existing entries. -/

/-- Value stored in `vlookup_dict` by the Validation screen: four optional
fields, `None` for missing cells (lines 739-744 and 750-755). -/
structure VEntry where
  accountno : Cell
  surname : Cell
  first_name : Cell
  other_name : Cell
deriving DecidableEq

/-- Python-dict update: point the key at the new value. -/
def updV (d : String → Option VEntry) (k : String) (v : VEntry) :
    String → Option VEntry :=
  fun k' => if k' = k then some v else d k'

/-- Entry built from a VLOOKUP row (lines 739-744):
`accountno` is `str(...).strip()` when not NaN, the three name fields are
taken raw when not NaN, all `None` otherwise. -/
def ventryOfVRow (r : VRow) : VEntry :=
  { accountno :=
      if notnaCell r.Accountno then some (pyStrip (cellStr r.Accountno)) else none
    surname := if notnaCell r.Surname then r.Surname else none
    first_name := if notnaCell r.First_Name then r.First_Name else none
    other_name := if notnaCell r.Other_Names then r.Other_Names else none }

/-- Primary loop of the Validation screen (lines 737-744): every row is
inserted under key `str(row['Ssnit']).strip()`, unconditionally. -/
def vlookupDictOf (rows : List VRow) : String → Option VEntry :=
  rows.foldl (fun d r => updV d (pyStrip (cellStr r.Ssnit)) (ventryOfVRow r))
    (fun _ => none)

/-- Entry built from a master-report row when its identifier is new
(lines 750-755). -/
def ventryOfMRow (r : MRow) : VEntry :=
  { accountno :=
      if notnaCell r.ClientAccountNumber then
        some (pyStrip (cellStr r.ClientAccountNumber))
      else none
    surname := if notnaCell r.Surname then r.Surname else none
    first_name := if notnaCell r.FirstName then r.FirstName else none
    other_name := if notnaCell r.OtherNames then r.OtherNames else none }

/-- Fill-only-empty merge of a master row into an existing entry
(lines 758-766): each field is replaced only when currently falsy; the
account number gets the notna/strip treatment, the three name fields are
assigned raw. -/
def fillFromMaster (e : VEntry) (r : MRow) : VEntry :=
  { accountno :=
      if truthyCell e.accountno then e.accountno
      else if notnaCell r.ClientAccountNumber then
        some (pyStrip (cellStr r.ClientAccountNumber))
      else none
    surname := if truthyCell e.surname then e.surname else r.Surname
    first_name := if truthyCell e.first_name then e.first_name else r.FirstName
    other_name := if truthyCell e.other_name then e.other_name else r.OtherNames }

/-- One step of the fallback loop (lines 747-766). -/
def masterStep (d : String → Option VEntry) (r : MRow) : String → Option VEntry :=
  let ssnit := pyStrip (cellStr r.Ssnit)
  match d ssnit with
  | none => updV d ssnit (ventryOfMRow r)
  | some e => updV d ssnit (fillFromMaster e r)

/-- The fallback loop of the Validation screen (lines 747-766). -/
def addMasterData (d : String → Option VEntry) (rows : List MRow) :
    String → Option VEntry :=
  rows.foldl masterStep d

/-- The full mapping built by the Validation screen (lines 736-766). -/
def validationMapping (v : List VRow) (m : List MRow) : String → Option VEntry :=
  addMasterData (vlookupDictOf v) m

/-- Field-wise preservation: every truthy (non-empty) field of `e` keeps
its value in `e'`. -/
def presVEntry (e e' : VEntry) : Prop :=
  (truthyCell e.accountno = true → e'.accountno = e.accountno) ∧
  (truthyCell e.surname = true → e'.surname = e.surname) ∧
  (truthyCell e.first_name = true → e'.first_name = e.first_name) ∧
  (truthyCell e.other_name = true → e'.other_name = e.other_name)

/-! ## `create_comprehensive_mapping` (module level, source lines 1307-1348)

This is the second, shadowing definition of the function (an earlier
definition at lines 1125-1170 is overwritten by it at module load).  Its
entries use plain strings with `''` for missing data, and its fallback
merge (lines 1342-1346) fills the account number ONLY.

Lines 1312-1313 normalize the identifier columns with
`df['Ssnit'].astype(str).str.strip().upper()`.  `astype(str).str.strip()`
produces a pandas `Series`; `.upper()` is then attribute access on the
Series itself (the string method would be `.str.upper()`), and a Series
has no `upper` attribute — `Series.__getattr__` only falls back to index
labels — so the statement raises `AttributeError` before any row is
visited.  The row loops (lines 1318-1347) are embedded separately below
as `populateVlookup` / `supplementMaster` so that their logic can be
reasoned about. -/

/-- Value stored by `create_comprehensive_mapping` (lines 1322-1328 and
1335-1341): stripped strings, `''` for missing cells. -/
structure CMEntry where
  accountno : String
  surname : String
  first_name : String
  other_name : String
  source : String
deriving DecidableEq

/-- Python-dict update for `CMEntry` mappings. -/
def updCM (m : String → Option CMEntry) (k : String) (v : CMEntry) :
    String → Option CMEntry :=
  fun k' => if k' = k then some v else m k'

/-- Row guard of both loops (lines 1321 and 1333):
`if pd.notna(ssnit) and str(ssnit).strip() and ssnit not in ['NAN', 'NONE', '']`.
Returns the key under which the row is processed, `none` when the row is
skipped. -/
def cmGuard (c : Cell) : Option String :=
  match c with
  | none => none
  | some s =>
    if pyStrip s ≠ "" ∧ s ∉ (["NAN", "NONE", ""] : List String) then some s else none

/-- Entry built from a VLOOKUP row (lines 1322-1328). -/
def cmValueOfV (r : VRow) : CMEntry :=
  { accountno := if notnaCell r.Accountno then pyStrip (cellStr r.Accountno) else ""
    surname := if notnaCell r.Surname then pyStrip (cellStr r.Surname) else ""
    first_name := if notnaCell r.First_Name then pyStrip (cellStr r.First_Name) else ""
    other_name := if notnaCell r.Other_Names then pyStrip (cellStr r.Other_Names) else ""
    source := "VLOOKUP" }

/-- One step of the primary loop (lines 1319-1328). -/
def pvStep (m : String → Option CMEntry) (r : VRow) : String → Option CMEntry :=
  match cmGuard r.Ssnit with
  | some k => updCM m k (cmValueOfV r)
  | none => m

/-- The primary loop (lines 1318-1328): later rows overwrite earlier ones. -/
def populateVlookup (rows : List VRow) : String → Option CMEntry :=
  rows.foldl pvStep (fun _ => none)

/-- Entry built from a master row for a new identifier (lines 1335-1341). -/
def cmValueOfM (r : MRow) : CMEntry :=
  { accountno :=
      if notnaCell r.ClientAccountNumber then pyStrip (cellStr r.ClientAccountNumber)
      else ""
    surname := if notnaCell r.Surname then pyStrip (cellStr r.Surname) else ""
    first_name := if notnaCell r.FirstName then pyStrip (cellStr r.FirstName) else ""
    other_name := if notnaCell r.OtherNames then pyStrip (cellStr r.OtherNames) else ""
    source := "Master" }

/-- Fallback merge into an existing entry (lines 1343-1346): ONLY the
account number is filled, and only when it is currently empty; the name
fields are left as they are, empty or not. -/
def cmFill (e : CMEntry) (r : MRow) : CMEntry :=
  if e.accountno = "" then
    { e with
      accountno :=
        if notnaCell r.ClientAccountNumber then pyStrip (cellStr r.ClientAccountNumber)
        else "" }
  else e

/-- One step of the fallback loop (lines 1331-1346). -/
def supplementStep (m : String → Option CMEntry) (r : MRow) :
    String → Option CMEntry :=
  match cmGuard r.Ssnit with
  | none => m
  | some k =>
    match m k with
    | none => updCM m k (cmValueOfM r)
    | some e => updCM m k (cmFill e r)

/-- The fallback loop (lines 1330-1346). -/
def supplementMaster (m : String → Option CMEntry) (rows : List MRow) :
    String → Option CMEntry :=
  rows.foldl supplementStep m

/-- Both row loops of `create_comprehensive_mapping` (lines 1318-1347),
run on given row lists. -/
def cmLoops (v : List VRow) (ms : List MRow) : String → Option CMEntry :=
  supplementMaster (populateVlookup v) ms

/-- The effect of the fallback loop on one key's entry, used to localize
`supplementMaster` at a key. -/
def entryStepCM (e : Option CMEntry) (r : MRow) : Option CMEntry :=
  match e with
  | none => some (cmValueOfM r)
  | some en => some (cmFill en r)

/-- Models the column assignment
`df['Ssnit'] = df['Ssnit'].astype(str).str.strip().upper()`
(source lines 1312-1313, and likewise line 1366):
`astype(str).str.strip()` yields a pandas `Series`, and `.upper()` is
attribute access on the Series (string methods live under `.str`); a
Series has no `upper` attribute, so the expression raises
`AttributeError` irrespective of the data. -/
def seriesStripUpper (_col : List Cell) : Except String (List String) :=
  Except.error "AttributeError: 'Series' object has no attribute 'upper'"

/-- `create_comprehensive_mapping` (the effective definition, source lines
1307-1348): normalizes the `Ssnit` columns of both sources (lines
1312-1313) and then runs the two row loops.  The normalization raises, so
the loops are never reached. -/
def create_comprehensive_mapping (v : List VRow) (ms : List MRow) :
    Except String (String → Option CMEntry) := do
  let vs ← seriesStripUpper (v.map VRow.Ssnit)
  let v' := (v.zip vs).map (fun p => { p.1 with Ssnit := some p.2 })
  let mss ← seriesStripUpper (ms.map MRow.Ssnit)
  let ms' := (ms.zip mss).map (fun p => { p.1 with Ssnit := some p.2 })
  pure (cmLoops v' ms')

/-! ## Schedule annotation (`process_schedule_files`, source lines 1350-1415)

The per-file loop normalizes the `ssnit` column at line 1366 with the same
`.str.strip().upper()` slip as lines 1312-1313 (the raised AttributeError
is caught by the per-file `except`, so in the shipped code each file is
reported as an error and skipped).  The row-processing logic the function
contains (lines 1373-1393) is embedded here. -/

/-- A schedule-file row as `process_schedule_files` sees it: the `ssnit`
column value plus the four identity cells it may overwrite. -/
structure SRow where
  ssnit : String
  accountno : Cell
  surname : Cell
  first_name : Cell
  other_name : Cell
deriving DecidableEq

/-- An entry of the `unmapped_records` list (lines 1389-1393):
`{'file': file, 'ssnit': ssnit, 'row': idx + 1}`. -/
structure UnmappedRec where
  file : String
  ssnit : String
  row : Nat
deriving DecidableEq

/-- Row-processing logic of `process_schedule_files` (lines 1373-1393):
returns the (possibly updated) row, the `changes_made` contribution, and
the `unmapped` entries the row adds.  When the mapping entry's account
number is non-empty, ALL FOUR fields are overwritten with the entry's
values (empty or not); when it is empty, nothing is changed; rows whose
identifier is `'NAN'`, `'NONE'` or `''` are skipped outright. -/
def processScheduleRow (m : String → Option CMEntry) (file : String) (idx : Nat)
    (r : SRow) : SRow × Bool × List UnmappedRec :=
  if r.ssnit ∈ (["NAN", "NONE", ""] : List String) then (r, false, [])
  else
    match m r.ssnit with
    | some d =>
      if d.accountno ≠ "" then
        ({ r with
            accountno := some d.accountno
            surname := some d.surname
            first_name := some d.first_name
            other_name := some d.other_name },
         true, [])
      else (r, false, [])
    | none => (r, false, [⟨file, r.ssnit, idx + 1⟩])

/-! ## Salary parsing and tier computation
(`Dashboard.validation` lines 812-814; the same expressions appear at
lines 1191-1193 inside `process_dataframe`). -/

/-- Digits-to-number accumulator for `toNumericCoerce`. -/
def natOfDigits (l : List Char) : Nat :=
  l.foldl (fun n c => 10 * n + (c.toNat - 48)) 0

/-- Every character is a decimal digit. -/
def allDigits (l : List Char) : Bool := l.all Char.isDigit

/-- Unsigned decimal literal: integer digits, optional `.` and fraction
digits, at least one digit in total.  The value is kept as a
numerator/denominator pair of naturals (`"12345.50"` becomes
`(1234550, 100)`) so that the kernel can evaluate the parse; `ratOfParsed`
turns it into the exact rational. -/
def parseUnsignedDec (l : List Char) : Option (Nat × Nat) :=
  let ip := l.takeWhile (· ≠ '.')
  match l.dropWhile (· ≠ '.') with
  | [] => if allDigits ip ∧ ip ≠ [] then some (natOfDigits ip, 1) else none
  | _ :: fp =>
    if allDigits ip ∧ allDigits fp ∧ (ip ≠ [] ∨ fp ≠ []) then
      some (natOfDigits ip * 10 ^ fp.length + natOfDigits fp, 10 ^ fp.length)
    else none

/-- Optionally signed decimal literal: integer numerator and positive
denominator. -/
def parseSignedDec (s : String) : Option (Int × Nat) :=
  match s.toList with
  | '-' :: rest => (parseUnsignedDec rest).map (fun p => (-(p.1 : Int), p.2))
  | '+' :: rest => (parseUnsignedDec rest).map (fun p => ((p.1 : Int), p.2))
  | l => (parseUnsignedDec l).map (fun p => ((p.1 : Int), p.2))

/-- The exact rational value of a parsed decimal literal. -/
def ratOfParsed (p : Int × Nat) : ℚ := (p.1 : ℚ) / (p.2 : ℚ)

/-- Model of `pd.to_numeric(x, errors='coerce')` on one string: an
optionally signed decimal literal parses to its exact value, anything
else (including exponent forms, unused in these files) coerces to NaN. -/
def toNumericCoerce (s : String) : Option ℚ :=
  (parseSignedDec s).map ratOfParsed

/-- The salary normalization of line 812 applied to one cell:
`pd.to_numeric(df['salary'].astype(str).str.replace(',', '').str.strip(), errors='coerce')`. -/
def parseSalaryCell (c : Cell) : Option ℚ :=
  toNumericCoerce (pyStrip (stripCommas (cellStr c)))

/-- The derived columns of one annotated row (lines 812-814): parsed
salary, `tier1 = 0`, `tier2 = salary * 0.05` (NaN-propagating). -/
structure TierRow where
  salary : Option ℚ
  tier1 : ℚ
  tier2 : Option ℚ
deriving DecidableEq

/-- Lines 812-814 on one row's salary cell. -/
def computeTiersRow (c : Cell) : TierRow :=
  let sal := parseSalaryCell c
  { salary := sal, tier1 := 0, tier2 := sal.map (fun q => q * (5 / 100 : ℚ)) }

/-- Lines 812-814 on the whole salary column (pandas column operations are
element-wise, so the file's rows are processed independently). -/
def computeTiers (col : List Cell) : List TierRow := col.map computeTiersRow

/-! ## Append Total (`Dashboard.append_total`, source lines 837-1040) -/

/-- A schedule file as `append_total` sees it: its name and, when the file
has a `tier2` column, that column's values. -/
structure SchedFile where
  name : String
  tier2 : Option (List ℚ)
deriving DecidableEq

/-- Per-file outcome of the batch loop. -/
inductive Outcome where
  | Processed
  | Failed
deriving DecidableEq

/-- `'_' in file` (line 887). -/
def hasUnderscore (s : String) : Bool := s.toList.contains '_'

/-- Python `s.startswith(p)`. -/
def pyStartsWith (s p : String) : Bool := p.toList.isPrefixOf s.toList

/-- Python `s.endswith(p)`. -/
def pyEndsWith (s p : String) : Bool := p.toList.isSuffixOf s.toList

/-- File filter of `append_total` (lines 885-887):
`file.endswith('.xlsx') and not file.startswith(('vlookup_',
'duplicate_ssnit_', '._', '~$')) and '_' not in file`. -/
def selectFile (nm : String) : Bool :=
  pyEndsWith nm ".xlsx" &&
    !(pyStartsWith nm "vlookup_" || pyStartsWith nm "duplicate_ssnit_" ||
      pyStartsWith nm "._" || pyStartsWith nm "~$") &&
    !hasUnderscore nm

/-- Drop the reversed characters up to and including the first `'.'`;
`none` when there is no dot. -/
def chopToDot : List Char → Option (List Char)
  | [] => none
  | '.' :: rest => some rest
  | _ :: rest => chopToDot rest

/-- `os.path.splitext(file)[0]`: everything before the last dot (the whole
name when there is none).  The filter guarantees the names used here end
in `.xlsx`. -/
def splitextBase (nm : String) : String :=
  match chopToDot nm.toList.reverse with
  | some restRev => String.mk restRev.reverse
  | none => nm

/-- Round to the nearest integer, ties to even — the rounding Python's
`format(x, '.2f')` applies to the scaled value. -/
def roundHalfEven (x : ℚ) : ℤ :=
  let f := ⌊x⌋
  let r := x - (f : ℚ)
  if r < 1 / 2 then f
  else if 1 / 2 < r then f + 1
  else if f % 2 = 0 then f else f + 1

/-- Two-digit zero-padded numeral. -/
def pad2 (n : Nat) : String := if n < 10 then "0" ++ toString n else toString n

/-- `f"{x:.2f}"`: the value rounded to two decimals and rendered with
exactly two fraction digits. -/
def fmt2 (x : ℚ) : String :=
  let n := roundHalfEven (100 * x)
  if n < 0 then
    "-" ++ toString ((-n).toNat / 100) ++ "." ++ pad2 ((-n).toNat % 100)
  else
    toString (n.toNat / 100) ++ "." ++ pad2 (n.toNat % 100)

/-- `df['tier2'].sum()`. -/
def sumList (l : List ℚ) : ℚ := l.foldl (· + ·) 0

/-- Effect of one iteration of the batch loop (lines 920-1000) on the
file itself: a selected file with a `tier2` column is renamed to
`base_total.xlsx` (lines 936-946, extension hard-coded `'.xlsx'` at line
941); a selected file without one raises
`ValueError: tier2 column not found` (line 934), caught at line 998, so
the file keeps its name; unselected files are never visited. -/
def appendStep (f : SchedFile) : SchedFile :=
  if selectFile f.name then
    match f.tier2 with
    | none => f
    | some col =>
      { f with name := splitextBase f.name ++ "_" ++ fmt2 (sumList col) ++ ".xlsx" }
  else f

/-- The status recorded for a visited file: `'Processed ✅'` (line 948) or
`'Failed ❌'` (line 999). -/
def appendOutcome (f : SchedFile) : Outcome :=
  if f.tier2.isSome then Outcome.Processed else Outcome.Failed

/-- One batch run of Append Total over a folder's files. -/
def appendTotalRun (files : List SchedFile) : List SchedFile :=
  files.map appendStep

/-- The outcome table of one batch run: one entry per selected file
(the `all_files` list of lines 881-892). -/
def appendTotalOutcomes (files : List SchedFile) : List (String × Outcome) :=
  (files.filter (fun f => selectFile f.name)).map (fun f => (f.name, appendOutcome f))

/-! ## Concrete inputs used by counterexamples and witnesses -/

/-- One-row primary source whose identifier is a lone space. -/
def c4RowEx : VRow := ⟨some " ", none, none, none, none⟩

/-- Primary source with a single row for identifier `S1` and an empty
account number. -/
def c6PrimaryEx : List VRow := [⟨some "S1", none, none, none, none⟩]

/-- Fallback source with two rows for `S1` carrying different account
numbers. -/
def c6MasterEx : List MRow :=
  [⟨some "S1", some "A", none, none, none⟩, ⟨some "S1", some "B", none, none, none⟩]

/-- A mapping with one entry: non-empty account number, empty surname. -/
def c2MapEx : String → Option CMEntry :=
  fun k => if k = "S1" then some ⟨"A", "", "F", "O", "VLOOKUP"⟩ else none

/-- A schedule row whose surname is already populated. -/
def c2RowEx : SRow := ⟨"S1", none, some "OLD", none, none⟩

/-- Primary dictionary of the C1 witness: one entry for `S1` with a
populated account number and surname. -/
def c1DictEx : String → Option VEntry :=
  vlookupDictOf [⟨some "S1", some "A1", some "DOE", none, none⟩]

/-- Master rows of the C1 witness: a different account number for `S1`. -/
def c1MasterEx : List MRow := [⟨some "S1", some "A2", some "JOHN", some "K", none⟩]

/-- The entry stored under `S1` by `c1DictEx`. -/
def c1EntryEx : VEntry := ⟨some "A1", some "DOE", none, none⟩

/-- Files of the C9 witness: one with a `tier2` column summing to 10.75,
one without a `tier2` column. -/
def c9FilesEx : List SchedFile :=
  [⟨"a.xlsx", some [21 / 2, 1 / 4]⟩, ⟨"b.xlsx", none⟩]

/-! # Theorems -/

/-- Sorting strings is invariant under permutation of the input list. -/
theorem pySorted_perm_eq {l₁ l₂ : List String} (h : l₁.Perm l₂) :
    pySorted l₁ = pySorted l₂ := by
  refine List.eq_of_perm_of_sorted (r := strLe) ?_ ?_ ?_
  · exact (List.perm_insertionSort _ l₁).trans (h.trans (List.perm_insertionSort _ l₂).symm)
  · exact List.sorted_insertionSort _ l₁
  · exact List.sorted_insertionSort _ l₂

/-- C7: The duplicate detector's normalized-name key is invariant under
permutation of name tokens — the key is computed by splitting on
whitespace, upper-casing, sorting the tokens lexicographically and
rejoining with single spaces — so records named "Smith John" and
"John Smith" receive the same key (and hence fall in the same duplicate
group) while a record named "John Smithy" does not; the token-sorted key
of `Dashboard.multiple_ssnit` also identifies the two example names. -/
theorem c7_name_key_perm_invariant :
    (∀ s t : String,
        (pySplit (pyUpper s)).Perm (pySplit (pyUpper t)) →
        standardize_name s = standardize_name t) ∧
    standardize_name "Smith John" = standardize_name "John Smith" ∧
    standardize_name "John Smithy" ≠ standardize_name "John Smith" ∧
    sortedFullNameKey "Smith John " = sortedFullNameKey "John Smith " := by
  refine ⟨fun s t h => ?_, by decide, by decide, by decide⟩
  unfold standardize_name
  rw [pySorted_perm_eq h]

/-- C7 witness: the permutation-invariance theorem applied at the concrete
names "Smith John" and "John Smith". -/
theorem c7_name_key_perm_invariant_witness :
    standardize_name "Smith John" = standardize_name "John Smith" :=
  c7_name_key_perm_invariant.1 "Smith John" "John Smith" (by decide)

/-- Localization of one fallback step of the Validation screen at a key. -/
theorem masterStep_at (d : String → Option VEntry) (r : MRow) (k : String) :
    masterStep d r k =
      if k = pyStrip (cellStr r.Ssnit) then
        match d (pyStrip (cellStr r.Ssnit)) with
        | none => some (ventryOfMRow r)
        | some e => some (fillFromMaster e r)
      else d k := by
  unfold masterStep updV
  cases d (pyStrip (cellStr r.Ssnit)) <;> simp

/-- `presVEntry` is reflexive. -/
theorem presVEntry_refl (e : VEntry) : presVEntry e e :=
  ⟨fun _ => rfl, fun _ => rfl, fun _ => rfl, fun _ => rfl⟩

/-- One fill step preserves every truthy field. -/
theorem presVEntry_fill (e : VEntry) (r : MRow) : presVEntry e (fillFromMaster e r) := by
  unfold presVEntry fillFromMaster
  refine ⟨?_, ?_, ?_, ?_⟩ <;> intro h <;> simp [h]

/-- `presVEntry` composes. -/
theorem presVEntry_trans {e e₁ e₂ : VEntry} (h₁ : presVEntry e e₁)
    (h₂ : presVEntry e₁ e₂) : presVEntry e e₂ := by
  obtain ⟨a₁, b₁, c₁, d₁⟩ := h₁
  obtain ⟨a₂, b₂, c₂, d₂⟩ := h₂
  refine ⟨fun h => ?_, fun h => ?_, fun h => ?_, fun h => ?_⟩
  · have k₁ := a₁ h
    have k₂ := a₂ (by rw [k₁]; exact h)
    rw [k₂, k₁]
  · have k₁ := b₁ h
    have k₂ := b₂ (by rw [k₁]; exact h)
    rw [k₂, k₁]
  · have k₁ := c₁ h
    have k₂ := c₂ (by rw [k₁]; exact h)
    rw [k₂, k₁]
  · have k₁ := d₁ h
    have k₂ := d₂ (by rw [k₁]; exact h)
    rw [k₂, k₁]

/-- Every truthy field of an existing entry survives the whole fallback
loop of the Validation screen. -/
theorem addMasterData_preserves (rows : List MRow) :
    ∀ (d : String → Option VEntry) (k : String) (e : VEntry),
      d k = some e →
      ∃ e', addMasterData d rows k = some e' ∧ presVEntry e e' := by
  induction rows with
  | nil => intro d k e h; exact ⟨e, h, presVEntry_refl e⟩
  | cons r rows ih =>
    intro d k e h
    have hstep : ∃ e₁, masterStep d r k = some e₁ ∧ presVEntry e e₁ := by
      rw [masterStep_at]
      by_cases hk : k = pyStrip (cellStr r.Ssnit)
      · rw [if_pos hk, ← hk, h]
        exact ⟨fillFromMaster e r, rfl, presVEntry_fill e r⟩
      · rw [if_neg hk]
        exact ⟨e, h, presVEntry_refl e⟩
    obtain ⟨e₁, h₁, p₁⟩ := hstep
    obtain ⟨e', h', p'⟩ := ih (masterStep d r) k e₁ h₁
    refine ⟨e', ?_, presVEntry_trans p₁ p'⟩
    simpa [addMasterData] using h'

/-- C1: For every identifier already present in the primary dictionary,
the fallback (master) pass leaves every non-empty field of the primary
entry unchanged — in particular a populated account number survives even
when the fallback supplies a different one — and a currently-empty
account number is filled with the fallback row's stripped value when that
value is present. -/
theorem c1_fallback_never_overwrites :
    (∀ (d : String → Option VEntry) (rows : List MRow) (k : String) (e : VEntry),
        d k = some e →
        ∃ e', addMasterData d rows k = some e' ∧ presVEntry e e') ∧
    (∀ (e : VEntry) (r : MRow),
        (truthyCell e.accountno = false →
          notnaCell r.ClientAccountNumber = true →
          (fillFromMaster e r).accountno = some (pyStrip (cellStr r.ClientAccountNumber))) ∧
        (truthyCell e.surname = false → (fillFromMaster e r).surname = r.Surname) ∧
        (truthyCell e.first_name = false → (fillFromMaster e r).first_name = r.FirstName) ∧
        (truthyCell e.other_name = false → (fillFromMaster e r).other_name = r.OtherNames)) := by
  constructor
  · intro d rows k e h
    exact addMasterData_preserves rows d k e h
  · intro e r
    refine ⟨fun h₁ h₂ => ?_, fun h => ?_, fun h => ?_, fun h => ?_⟩ <;>
      simp_all [fillFromMaster]

/-- C1 witness: the theorem applied to a concrete primary entry for `S1`
(account `A1`, surname `DOE`) and a fallback row carrying account `A2`,
and to a concrete entry with an empty account number. -/
theorem c1_fallback_never_overwrites_witness :
    (∃ e', addMasterData c1DictEx c1MasterEx "S1" = some e' ∧ presVEntry c1EntryEx e') ∧
    (fillFromMaster ⟨some "", none, none, none⟩
        ⟨some "S1", some "A2", none, none, none⟩).accountno
      = some (pyStrip (cellStr (some "A2"))) :=
  ⟨c1_fallback_never_overwrites.1 c1DictEx c1MasterEx "S1" c1EntryEx (by decide),
   (c1_fallback_never_overwrites.2 ⟨some "", none, none, none⟩
     ⟨some "S1", some "A2", none, none, none⟩).1 (by decide) (by decide)⟩

/-- A primary-loop step leaves keys other than the row's own untouched. -/
theorem pvStep_at_ne (m : String → Option CMEntry) (r : VRow) (k : String)
    (h : cmGuard r.Ssnit ≠ some k) : pvStep m r k = m k := by
  unfold pvStep
  cases hg : cmGuard r.Ssnit with
  | none => rfl
  | some k' =>
    have hne : k ≠ k' := by rintro rfl; exact h hg
    simp [updCM, hne]

/-- A primary-loop step stores the row's record under the row's key. -/
theorem pvStep_at_eq (m : String → Option CMEntry) (r : VRow) (k : String)
    (h : cmGuard r.Ssnit = some k) : pvStep m r k = some (cmValueOfV r) := by
  unfold pvStep
  rw [h]
  simp [updCM]

/-- Localization of the primary loop at a key: the stored record comes
from the LAST row whose guard yields that key. -/
theorem populateAux_at (rows : List VRow) :
    ∀ (m : String → Option CMEntry) (k : String),
      List.foldl pvStep m rows k =
        ((rows.filter (fun r => cmGuard r.Ssnit == some k)).getLast?).elim (m k)
          (fun r => some (cmValueOfV r)) := by
  induction rows with
  | nil => intro m k; rfl
  | cons r rows ih =>
    intro m k
    rw [List.foldl_cons, ih]
    by_cases hr : cmGuard r.Ssnit = some k
    · rw [List.filter_cons_of_pos (by simp [hr])]
      cases hrest : rows.filter (fun r => cmGuard r.Ssnit == some k) with
      | nil => simp [hrest, pvStep_at_eq m r k hr]
      | cons b l =>
        rw [List.getLast?_cons_cons]
        cases hg : (b :: l).getLast? with
        | none => simp at hg
        | some x => rfl
    · rw [List.filter_cons_of_neg (by simp [hr]), pvStep_at_ne m r k hr]

/-- Localization of `populateVlookup` at a key. -/
theorem populateVlookup_at (rows : List VRow) (k : String) :
    populateVlookup rows k =
      ((rows.filter (fun r => cmGuard r.Ssnit == some k)).getLast?).elim none
        (fun r => some (cmValueOfV r)) :=
  populateAux_at rows (fun _ => none) k

/-- A fallback-loop step is a dictionary update at the row's key, with the
value described by `entryStepCM`. -/
theorem supplementStep_some (m : String → Option CMEntry) (r : MRow) (k' : String)
    (h : cmGuard r.Ssnit = some k') :
    ∃ v, supplementStep m r = updCM m k' v ∧ entryStepCM (m k') r = some v := by
  cases hml : m k' with
  | none =>
    refine ⟨cmValueOfM r, ?_, ?_⟩
    · simp only [supplementStep, h, hml]
    · simp only [entryStepCM, hml]
  | some e =>
    refine ⟨cmFill e r, ?_, ?_⟩
    · simp only [supplementStep, h, hml]
    · simp only [entryStepCM, hml]

/-- A fallback-loop step leaves keys other than the row's own untouched. -/
theorem supplementStep_at_ne (m : String → Option CMEntry) (r : MRow) (k : String)
    (h : cmGuard r.Ssnit ≠ some k) : supplementStep m r k = m k := by
  cases hg : cmGuard r.Ssnit with
  | none => unfold supplementStep; rw [hg]
  | some k' =>
    have hne : k ≠ k' := by rintro rfl; exact h hg
    obtain ⟨v, hv, _⟩ := supplementStep_some m r k' hg
    rw [hv]
    simp [updCM, hne]

/-- A fallback-loop step acts on the row's own key through `entryStepCM`. -/
theorem supplementStep_at_eq (m : String → Option CMEntry) (r : MRow) (k : String)
    (h : cmGuard r.Ssnit = some k) : supplementStep m r k = entryStepCM (m k) r := by
  obtain ⟨v, hv, he⟩ := supplementStep_some m r k h
  rw [hv, he]
  simp [updCM]

/-- Localization of the fallback loop at a key. -/
theorem supplementAux_at (rows : List MRow) :
    ∀ (m : String → Option CMEntry) (k : String),
      List.foldl supplementStep m rows k =
        (rows.filter (fun r => cmGuard r.Ssnit == some k)).foldl entryStepCM (m k) := by
  induction rows with
  | nil => intro m k; rfl
  | cons r rows ih =>
    intro m k
    rw [List.foldl_cons, ih]
    by_cases hr : cmGuard r.Ssnit = some k
    · rw [List.filter_cons_of_pos (by simp [hr]), List.foldl_cons,
        supplementStep_at_eq m r k hr]
    · rw [List.filter_cons_of_neg (by simp [hr]), supplementStep_at_ne m r k hr]

/-- Localization of both loops of `create_comprehensive_mapping` at a key:
the value depends only on the rows of each source whose guard yields that
key. -/
theorem cmLoops_at (v : List VRow) (ms : List MRow) (k : String) :
    cmLoops v ms k =
      (ms.filter (fun r => cmGuard r.Ssnit == some k)).foldl entryStepCM
        (((v.filter (fun r => cmGuard r.Ssnit == some k)).getLast?).elim none
          (fun r => some (cmValueOfV r))) := by
  unfold cmLoops supplementMaster
  rw [supplementAux_at, populateVlookup_at]

/-- A key produced by the row guard never trims to the empty string. -/
theorem cmGuard_strip_ne (c : Cell) (k : String) (h : cmGuard c = some k) :
    pyStrip k ≠ "" := by
  cases c with
  | none => exact absurd h (by simp [cmGuard])
  | some s =>
    simp only [cmGuard] at h
    split_ifs at h with hc
    injection h with h'
    exact h' ▸ hc.1

/-- C4 counterexample: the Validation screen's inline builder
(source lines 736-744) has no empty-identifier skip — a primary row whose
identifier is a lone space is inserted under the key `""`, so the mapping
contains a record whose identifier is empty after trimming, contradicting
the claim for this builder. -/
theorem c4_validation_empty_key_cex :
    pyStrip (cellStr c4RowEx.Ssnit) = "" ∧
    vlookupDictOf [c4RowEx] "" = some ⟨none, none, none, none⟩ :=
  ⟨by decide, by decide⟩

/-- C4 (amended): the row loops of `create_comprehensive_mapping`
(source lines 1318-1347) skip every row whose identifier is missing,
trims to empty, or equals `'NAN'`/`'NONE'`, so the mapping they build has
no record under a key that is empty after trimming; the Validation
screen's inline builder, by contrast, inserts such records (see the
counterexample). -/
theorem c4_cm_loops_skip_empty :
    ∀ (v : List VRow) (ms : List MRow) (k : String),
      pyStrip k = "" → cmLoops v ms k = none := by
  intro v ms k hk
  rw [cmLoops_at]
  have hv : v.filter (fun r => cmGuard r.Ssnit == some k) = [] := by
    rw [List.filter_eq_nil_iff]
    intro r _
    simp only [beq_iff_eq]
    intro hg
    exact cmGuard_strip_ne _ _ hg hk
  have hm : ms.filter (fun r => cmGuard r.Ssnit == some k) = [] := by
    rw [List.filter_eq_nil_iff]
    intro r _
    simp only [beq_iff_eq]
    intro hg
    exact cmGuard_strip_ne _ _ hg hk
  rw [hv, hm]
  rfl

/-- C4 witness: the amended theorem applied to the one-row primary source
whose identifier is a lone space, at the empty key. -/
theorem c4_cm_loops_skip_empty_witness :
    cmLoops [c4RowEx] [] "" = none :=
  c4_cm_loops_skip_empty [c4RowEx] [] "" (by decide)

/-- Permutations of lists of length at most one coincide. -/
theorem perm_eq_of_length_le_one {α : Type} {l₁ l₂ : List α}
    (h : l₁.Perm l₂) (hl : l₁.length ≤ 1) : l₁ = l₂ := by
  cases l₁ with
  | nil => exact h.nil_eq
  | cons a t =>
    cases t with
    | nil => exact List.singleton_perm.mp h
    | cons b t' => simp at hl

/-- C6 counterexample: the identifier `S1` occurs in exactly one primary
row (so it has no primary duplicates), yet the mapping's account number
depends on the iteration order of the FALLBACK source: with two fallback
rows for `S1`, the first one to fill the empty account number wins, so
reversing the fallback source changes the stored record. -/
theorem c6_fallback_order_cex :
    c6MasterEx.Perm c6MasterEx.reverse ∧
    (c6PrimaryEx.filter (fun r => cmGuard r.Ssnit == some "S1")).length = 1 ∧
    cmLoops c6PrimaryEx c6MasterEx "S1" ≠ cmLoops c6PrimaryEx c6MasterEx.reverse "S1" :=
  ⟨(List.reverse_perm c6MasterEx).symm, by decide, by decide⟩

/-- C6 (amended): when the primary source contains several rows with the
same identifier, the stored record is the one built from the LAST such
primary row; and the mapping's value at an identifier is independent of
row iteration order provided each source contains at most one row for
that identifier (with several fallback rows for an identifier whose
account number is still empty, the earliest fallback row wins, so
fallback order can matter). -/
theorem c6_last_primary_wins :
    (∀ (rows : List VRow) (k : String),
        populateVlookup rows k =
          ((rows.filter (fun r => cmGuard r.Ssnit == some k)).getLast?).elim none
            (fun r => some (cmValueOfV r))) ∧
    (∀ (v₁ v₂ : List VRow) (m₁ m₂ : List MRow) (k : String),
        v₁.Perm v₂ → m₁.Perm m₂ →
        (v₁.filter (fun r => cmGuard r.Ssnit == some k)).length ≤ 1 →
        (m₁.filter (fun r => cmGuard r.Ssnit == some k)).length ≤ 1 →
        cmLoops v₁ m₁ k = cmLoops v₂ m₂ k) := by
  constructor
  · exact populateVlookup_at
  · intro v₁ v₂ m₁ m₂ k hv hm hv1 hm1
    rw [cmLoops_at, cmLoops_at]
    rw [perm_eq_of_length_le_one (hv.filter _) hv1,
      perm_eq_of_length_le_one (hm.filter _) hm1]

/-- C6 witness: the amended theorem applied to two orderings of a
two-row primary source (distinct identifiers `S1`, `S2`) with a single
fallback row for `S1`. -/
theorem c6_last_primary_wins_witness :
    cmLoops [⟨some "S1", none, none, none, none⟩, ⟨some "S2", some "X", none, none, none⟩]
        [⟨some "S1", some "A", none, none, none⟩] "S1" =
      cmLoops [⟨some "S2", some "X", none, none, none⟩, ⟨some "S1", none, none, none, none⟩]
        [⟨some "S1", some "A", none, none, none⟩] "S1" :=
  c6_last_primary_wins.2 _ _ _ _ "S1" (by decide) (by decide) (by decide) (by decide)

/-- C5: `create_comprehensive_mapping` never performs the claimed
trim-and-uppercase comparison: its identifier normalization
`df['Ssnit'].astype(str).str.strip().upper()` (lines 1312-1313) calls
`.upper()` on a pandas Series — the string method is `.str.upper()` — so
the function raises `AttributeError` on every input (evaluated here at a
one-row primary source) instead of building the mapping.
`process_schedule_files` line 1366 has the identical slip. -/
theorem c5_normalization_raises :
    create_comprehensive_mapping [⟨some " ab ", none, none, none, none⟩] [] =
      Except.error "AttributeError: 'Series' object has no attribute 'upper'" := rfl

/-- C2 counterexample: the mapping entry for `S1` has an EMPTY surname, so
the claim ("each field is overwritten exactly when the mapping entry's
corresponding field is non-empty") predicts the row's populated surname
survives; the code of `process_schedule_files` overwrites all four fields
whenever the entry's account number is non-empty, so the surname `"OLD"`
is replaced by the empty value. -/
theorem c2_per_field_cex :
    (c2MapEx "S1").map CMEntry.surname = some "" ∧
    c2RowEx.surname = some "OLD" ∧
    ((processScheduleRow c2MapEx "sched.xlsx" 0 c2RowEx).1).surname = some "" :=
  ⟨by decide, by decide, by decide⟩

/-- C2 (amended): per input row of `process_schedule_files`: a row whose
identifier is `'NAN'`, `'NONE'` or `''` is skipped (unchanged, no
unmapped entry); when the identifier is in the mapping, ALL FOUR identity
fields are overwritten with the entry's values (empty or not) exactly
when the entry's ACCOUNT NUMBER is non-empty, and nothing changes when it
is empty; when the identifier is absent, the row is left unchanged (its
fields are not blanked) and exactly one `(file, row index + 1,
identifier)` entry is appended to the unmapped list. -/
theorem c2_annotate_rows :
    ∀ (m : String → Option CMEntry) (file : String) (idx : Nat) (r : SRow),
      (r.ssnit ∈ (["NAN", "NONE", ""] : List String) →
        processScheduleRow m file idx r = (r, false, [])) ∧
      (∀ d, m r.ssnit = some d → r.ssnit ∉ (["NAN", "NONE", ""] : List String) →
        (d.accountno ≠ "" →
          processScheduleRow m file idx r =
            ({ r with
                accountno := some d.accountno
                surname := some d.surname
                first_name := some d.first_name
                other_name := some d.other_name },
             true, [])) ∧
        (d.accountno = "" → processScheduleRow m file idx r = (r, false, []))) ∧
      (m r.ssnit = none → r.ssnit ∉ (["NAN", "NONE", ""] : List String) →
        processScheduleRow m file idx r = (r, false, [⟨file, r.ssnit, idx + 1⟩])) := by
  intro m file idx r
  refine ⟨fun h => ?_, fun d hd hn => ⟨fun ha => ?_, fun ha => ?_⟩, fun hd hn => ?_⟩
  · simp [processScheduleRow, h]
  · simp [processScheduleRow, hn, hd, ha]
  · simp [processScheduleRow, hn, hd, ha]
  · simp [processScheduleRow, hn, hd]

/-- C2 witness: the amended theorem applied to a concrete unmapped row at
index 3 of file `sched.xlsx`. -/
theorem c2_annotate_rows_witness :
    processScheduleRow c2MapEx "sched.xlsx" 3 ⟨"S9", none, none, none, none⟩ =
      (⟨"S9", none, none, none, none⟩, false, [⟨"sched.xlsx", "S9", 4⟩]) :=
  (c2_annotate_rows c2MapEx "sched.xlsx" 3 ⟨"S9", none, none, none, none⟩).2.2
    (by decide) (by decide)

/-- C3: For every annotated row `tier1 = 0`, and `tier2` is the parsed
salary times `0.05`, where the salary is obtained by removing commas,
stripping surrounding whitespace and parsing as a decimal number; in
particular `"12,345.50"` parses to `12345.50` and yields
`tier2 = 617.275` (exact decimal arithmetic modelled by `ℚ`). -/
theorem c3_tier_formulas :
    (∀ c : Cell, (computeTiersRow c).tier1 = 0) ∧
    (∀ (c : Cell) (q : ℚ), parseSalaryCell c = some q →
        (computeTiersRow c).tier2 = some (q * (5 / 100))) ∧
    parseSalaryCell (some "12,345.50") = some (24691 / 2) ∧
    (computeTiersRow (some "12,345.50")).tier2 = some (617275 / 1000) := by
  have hraw : parseSignedDec (pyStrip (stripCommas (cellStr (some "12,345.50")))) =
      some ((1234550 : Int), 100) := by decide
  have hparse : parseSalaryCell (some "12,345.50") = some (24691 / 2) := by
    unfold parseSalaryCell toNumericCoerce
    rw [hraw]
    simp only [Option.map_some']
    congr 1
    unfold ratOfParsed
    norm_num
  refine ⟨fun c => rfl, fun c q h => ?_, hparse, ?_⟩
  · simp [computeTiersRow, h]
  · have h2 : (computeTiersRow (some "12,345.50")).tier2 =
        some ((24691 / 2 : ℚ) * (5 / 100)) := by
      simp [computeTiersRow, hparse]
    rw [h2]
    norm_num

/-- C3 witness: the tier-2 formula applied at the concrete salary cell
`"12,345.50"`. -/
theorem c3_tier_formulas_witness :
    (computeTiersRow (some "12,345.50")).tier2 = some ((24691 / 2 : ℚ) * (5 / 100)) :=
  c3_tier_formulas.2.1 (some "12,345.50") (24691 / 2) c3_tier_formulas.2.2.1

/-- C8: A row whose salary does not parse receives a null salary and a
null tier2 instead of raising, and the annotation of a file is row-wise
(the output column has the input's length and its `i`-th entry depends
only on the `i`-th input row), so one bad value never aborts the file. -/
theorem c8_bad_salary_recovered :
    (∀ col : List Cell, (computeTiers col).length = col.length) ∧
    (∀ (col : List Cell) (i : Nat),
        (computeTiers col)[i]? = (col[i]?).map computeTiersRow) ∧
    (∀ c : Cell, parseSalaryCell c = none →
        (computeTiersRow c).salary = none ∧ (computeTiersRow c).tier2 = none) := by
  refine ⟨fun col => ?_, fun col i => ?_, fun c h => ?_⟩
  · simp [computeTiers]
  · simp [computeTiers]
  · exact ⟨by simp [computeTiersRow, h], by simp [computeTiersRow, h]⟩

/-- C8 witness: the recovery clause applied at the unparseable salary
`"12abc"`, and the length clause at a two-row file containing it. -/
theorem c8_bad_salary_recovered_witness :
    ((computeTiersRow (some "12abc")).salary = none ∧
      (computeTiersRow (some "12abc")).tier2 = none) ∧
    (computeTiers [some "12abc", some "100"]).length = 2 :=
  ⟨c8_bad_salary_recovered.2.2 (some "12abc") (by decide),
   (c8_bad_salary_recovered.1 [some "12abc", some "100"]).trans (by decide)⟩

/-- A name of the shape `a ++ "_" ++ b ++ c` contains an underscore. -/
theorem hasUnderscore_mid (a b c : String) :
    hasUnderscore (a ++ "_" ++ b ++ c) = true := by
  cases a with
  | mk la =>
    cases b with
    | mk lb =>
      cases c with
      | mk lc =>
        show (((la ++ ['_']) ++ lb) ++ lc).contains '_' = true
        simp [List.contains, List.elem_eq_mem]

/-- Visiting a file twice changes nothing the second time: an unselected
file is untouched, a failed file fails identically, and a renamed file's
new name contains an underscore, so the filter skips it. -/
theorem appendStep_idem (f : SchedFile) : appendStep (appendStep f) = appendStep f := by
  by_cases hsel : selectFile f.name
  · cases htier : f.tier2 with
    | none => simp [appendStep, hsel, htier]
    | some col =>
      have h1 : appendStep f =
          { f with name := splitextBase f.name ++ "_" ++ fmt2 (sumList col) ++ ".xlsx" } := by
        simp [appendStep, hsel, htier]
      have h2 : selectFile (splitextBase f.name ++ "_" ++ fmt2 (sumList col) ++ ".xlsx")
          = false := by
        simp [selectFile, hasUnderscore_mid]
      rw [h1]
      simp [appendStep, h2]
  · simp [appendStep, hsel]

/-- C9: In a batch Append Total run over any file set, a selected file
lacking a `tier2` column gets outcome Failed and keeps its name, every
other selected file gets outcome Processed, and a processed file's new
name is its original base name, an underscore, the sum of its `tier2`
column formatted to two decimal places, and the `.xlsx` extension (which
the source filter guarantees is the original extension). -/
theorem c9_append_total_outcomes :
    (∀ files : List SchedFile, appendTotalRun files = files.map appendStep) ∧
    (∀ (files : List SchedFile) (f : SchedFile), f ∈ files → selectFile f.name = true →
        (f.tier2 = none →
          appendStep f = f ∧ (f.name, Outcome.Failed) ∈ appendTotalOutcomes files) ∧
        (∀ col, f.tier2 = some col →
          (appendStep f).name =
            splitextBase f.name ++ "_" ++ fmt2 (sumList col) ++ ".xlsx" ∧
          (f.name, Outcome.Processed) ∈ appendTotalOutcomes files)) := by
  refine ⟨fun _ => rfl, fun files f hf hsel => ⟨fun hnone => ⟨?_, ?_⟩, fun col hcol => ⟨?_, ?_⟩⟩⟩
  · simp [appendStep, hsel, hnone]
  · unfold appendTotalOutcomes
    refine List.mem_map.mpr ⟨f, List.mem_filter.mpr ⟨hf, by simp [hsel]⟩, ?_⟩
    simp [appendOutcome, hnone]
  · simp [appendStep, hsel, hcol]
  · unfold appendTotalOutcomes
    refine List.mem_map.mpr ⟨f, List.mem_filter.mpr ⟨hf, by simp [hsel]⟩, ?_⟩
    simp [appendOutcome, hcol]

/-- C9 witness: the theorem applied to a concrete two-file batch — one
file with a `tier2` column summing to 10.75, one without the column. -/
theorem c9_append_total_outcomes_witness :
    (appendStep ⟨"b.xlsx", none⟩ = ⟨"b.xlsx", none⟩ ∧
      ("b.xlsx", Outcome.Failed) ∈ appendTotalOutcomes c9FilesEx) ∧
    ((appendStep ⟨"a.xlsx", some [21 / 2, 1 / 4]⟩).name =
        splitextBase "a.xlsx" ++ "_" ++ fmt2 (sumList [21 / 2, 1 / 4]) ++ ".xlsx" ∧
      ("a.xlsx", Outcome.Processed) ∈ appendTotalOutcomes c9FilesEx) :=
  ⟨(c9_append_total_outcomes.2 c9FilesEx ⟨"b.xlsx", none⟩ (by simp [c9FilesEx])
      (by decide)).1 rfl,
   (c9_append_total_outcomes.2 c9FilesEx ⟨"a.xlsx", some [21 / 2, 1 / 4]⟩
      (by simp [c9FilesEx]) (by decide)).2 [21 / 2, 1 / 4] rfl⟩

/-- C10: Append Total never selects — hence never renames or otherwise
touches — a file whose name contains an underscore or starts with
`vlookup_`, `duplicate_ssnit_`, `._` or `~$`; and since every file it
produces gains an underscore in its name, running the batch a second time
changes nothing. -/
theorem c10_skip_generated :
    (∀ nm : String,
        hasUnderscore nm = true ∨ pyStartsWith nm "vlookup_" = true ∨
          pyStartsWith nm "duplicate_ssnit_" = true ∨ pyStartsWith nm "._" = true ∨
          pyStartsWith nm "~$" = true →
        selectFile nm = false) ∧
    (∀ f : SchedFile, selectFile f.name = false → appendStep f = f) ∧
    (∀ files : List SchedFile, appendTotalRun (appendTotalRun files) = appendTotalRun files) := by
  refine ⟨fun nm h => ?_, fun f h => ?_, fun files => ?_⟩
  · rcases h with h | h | h | h | h <;> simp [selectFile, h]
  · simp [appendStep, h]
  · unfold appendTotalRun
    rw [List.map_map]
    exact List.map_congr_left fun f _ => by
      simp only [Function.comp]
      exact appendStep_idem f

/-- C10 witness: the theorem applied to concrete already-renamed,
temporary and generated file names. -/
theorem c10_skip_generated_witness :
    selectFile "a_10.75.xlsx" = false ∧ selectFile "~$tmp.xlsx" = false ∧
    appendStep ⟨"vlookup_acme.xlsx", some [1]⟩ = ⟨"vlookup_acme.xlsx", some [1]⟩ :=
  ⟨c10_skip_generated.1 "a_10.75.xlsx" (Or.inl (by decide)),
   c10_skip_generated.1 "~$tmp.xlsx" (Or.inr (Or.inr (Or.inr (Or.inr (by decide))))),
   c10_skip_generated.2.1 ⟨"vlookup_acme.xlsx", some [1]⟩
     (c10_skip_generated.1 "vlookup_acme.xlsx" (Or.inr (Or.inl (by decide))))⟩

end Ultra2
